import Mathlib

/-!
Verification of the device_groups UDP wrapper
(src/components/device_groups/device_groups_WiFiUdp.h).

The header implements the IPAddress value type inline; those definitions are
translated directly from the source. The device_groups_WiFiUDP methods are
declared in the header but their bodies are not part of the repository files,
so each operation below is modelled from the specification text, as its doc
comment records.
-/

namespace DeviceGroupsUdp

/-- IPv4 address value type, translated from the source header: four uint8
bytes stored in order. Bytes are modelled as Nat; the claims about IPAddress
involve no arithmetic, so the 8-bit range is not needed. -/
structure IPAddress where
  b0 : Nat
  b1 : Nat
  b2 : Nat
  b3 : Nat
deriving DecidableEq

/-- Translated from the source default constructor IPAddress(), which
initialises all four bytes to zero. -/
def IPAddress.zero : IPAddress := ⟨0, 0, 0, 0⟩

/-- Translated from the source indexing operator: bytes[i] for i in 0..3. -/
def IPAddress.getByte (a : IPAddress) (i : Fin 4) : Nat :=
  if i.val = 0 then a.b0
  else if i.val = 1 then a.b1
  else if i.val = 2 then a.b2
  else a.b3

/-- Translated from the source equality operator: the conjunction of the four
byte comparisons. -/
def IPAddress.eqOp (a b : IPAddress) : Bool :=
  (a.b0 == b.b0) && (a.b1 == b.b1) && (a.b2 == b.b2) && (a.b3 == b.b3)

/-- A UDP datagram as seen by the receive path: payload bytes plus the
sender address and port captured at receive time. -/
structure Datagram where
  payload : List Nat
  src_ip : IPAddress
  src_port : Nat
deriving DecidableEq

/-- Modelled from the spec: the state of one device_groups_WiFiUDP channel.
The header declares the fields (sock_fd, remote_addr, sender_addr,
is_connected, the two buffers with their sizes, recv_read_position, and the
deduplication pair last_packet_hash / last_packet_time); the spec describes
SendBuffer, ReceiveBuffer and DeduplicationFilter. send_data is the staged
outgoing prefix (its length is the send write cursor), recv_data the buffered
payload of the most recently admitted datagram. -/
structure Channel where
  is_connected : Bool
  local_port : Nat
  send_buffer_size : Nat
  send_data : List Nat
  remote_addr : IPAddress
  remote_port : Nat
  recv_data : List Nat
  recv_data_length : Nat
  recv_read_position : Nat
  sender_ip : IPAddress
  sender_port : Nat
  last_packet_hash : Nat
  last_packet_time : Nat
deriving DecidableEq

/-- Deduplication window, from the source header: DEDUP_WINDOW_MS = 100. -/
def DEDUP_WINDOW_MS : Nat := 100

/-- Modelled from the spec: the content fingerprint of a payload. The spec
leaves the algorithm open (design note suggests a 32-bit rolling hash over
the payload bytes), so a djb2-style rolling hash reduced mod 2^32 is used. -/
def packetHash (payload : List Nat) : Nat :=
  payload.foldl (fun h b => (h * 33 + b) % 4294967296) 5381

/-- Modelled from the spec: the freshly constructed channel — not connected,
empty buffers, zeroed cursors and deduplication state. The send capacity is
fixed at construction. -/
def initChannel (cap : Nat) : Channel :=
  { is_connected := false
    local_port := 0
    send_buffer_size := cap
    send_data := []
    remote_addr := IPAddress.zero
    remote_port := 0
    recv_data := []
    recv_data_length := 0
    recv_read_position := 0
    sender_ip := IPAddress.zero
    sender_port := 0
    last_packet_hash := 0
    last_packet_time := 0 }

/-- Modelled from the spec: begin(port) waits for network readiness and binds;
failure (network not ready or socket/bind failure, collapsed into the ready
flag) is reported as false with no state change. -/
def begin (s : Channel) (ready : Bool) (port : Nat) : Channel × Bool :=
  if ready then ({ s with is_connected := true, local_port := port }, true)
  else (s, false)

/-- Modelled from the spec: stop() closes the socket, resets the SendBuffer
and ReceiveBuffer cursors and the pending destination, and resets the
DeduplicationFilter state. Safe on an already stopped channel. -/
def stop (s : Channel) : Channel :=
  { s with is_connected := false
           send_data := []
           remote_addr := IPAddress.zero
           remote_port := 0
           recv_data := []
           recv_data_length := 0
           recv_read_position := 0
           last_packet_hash := 0
           last_packet_time := 0 }

/-- Modelled from the spec: connected() is true only if the socket is bound
and valid. -/
def connected (s : Channel) : Bool := s.is_connected

/-- Modelled from the spec: beginPacket records the destination, resets the
send write cursor to zero, and fails if the channel has no valid socket. -/
def beginPacket (s : Channel) (ip : IPAddress) (port : Nat) : Channel × Bool :=
  if s.is_connected then
    ({ s with remote_addr := ip, remote_port := port, send_data := [] }, true)
  else (s, false)

/-- Modelled from the spec: write(byte) appends one byte to the SendBuffer if
capacity remains, returning the number of bytes accepted (1 or 0); after
stop() every write fails gracefully returning 0. -/
def write1 (s : Channel) (b : Nat) : Channel × Nat :=
  if s.is_connected then
    if s.send_data.length < s.send_buffer_size then
      ({ s with send_data := s.send_data ++ [b] }, 1)
    else (s, 0)
  else (s, 0)

/-- Modelled from the spec: write(buffer, size) appends up to capacity and
returns the number of bytes actually accepted, possibly fewer than requested;
after stop() it fails gracefully returning 0. -/
def writeBuf (s : Channel) (buf : List Nat) : Channel × Nat :=
  if s.is_connected then
    ({ s with send_data :=
          s.send_data ++ buf.take (min buf.length (s.send_buffer_size - s.send_data.length)) },
     min buf.length (s.send_buffer_size - s.send_data.length))
  else (s, 0)

/-- Modelled from the spec: write(cString) appends the bytes of the string,
with the same capacity behaviour as the buffer form. The argument is the list
of bytes of the C string up to its terminator. -/
def writeStr (s : Channel) (str : List Nat) : Channel × Nat := writeBuf s str

/-- Modelled from the spec: endPacket performs exactly one datagram
transmission of the accumulated bytes, then clears the write cursor; it
returns success only if the full buffered length was transmitted (OS-level
outcome passed as osOk). The emitted payload is returned for the peer. -/
def endPacket (s : Channel) (osOk : Bool) : Channel × Bool × Option (List Nat) :=
  if s.is_connected then
    ({ s with send_data := [] }, osOk, if osOk then some s.send_data else none)
  else (s, false, none)

/-- Modelled from the spec: parsePacket() polls for one datagram (inc, with
now the current monotonic time in ms). With no datagram, or when the
DeduplicationFilter rejects (fingerprint equals last_packet_hash and elapsed
time below the 100 ms window), it returns 0 and leaves all state untouched.
When a datagram is admitted it overwrites the buffered payload, dataLength,
readPosition (reset to 0) and sender address+port together, updates the
deduplication pair, and returns the payload length. -/
def parsePacket (s : Channel) (inc : Option Datagram) (now : Nat) : Channel × Nat :=
  match inc with
  | none => (s, 0)
  | some d =>
    if s.is_connected then
      if packetHash d.payload = s.last_packet_hash ∧
          now - s.last_packet_time < DEDUP_WINDOW_MS then
        (s, 0)
      else
        ({ s with recv_data := d.payload
                  recv_data_length := d.payload.length
                  recv_read_position := 0
                  sender_ip := d.src_ip
                  sender_port := d.src_port
                  last_packet_hash := packetHash d.payload
                  last_packet_time := now },
         d.payload.length)
    else (s, 0)

/-- Modelled from the spec: available() is dataLength - readPosition. -/
def available (s : Channel) : Nat := s.recv_data_length - s.recv_read_position

/-- Modelled from the spec: read() returns the next byte and advances
readPosition, or -1 if none remain. -/
def read1 (s : Channel) : Channel × Int :=
  if s.recv_read_position < s.recv_data_length then
    ({ s with recv_read_position := s.recv_read_position + 1 },
     (s.recv_data.getD s.recv_read_position 0 : Int))
  else (s, -1)

/-- Modelled from the spec: read(buffer, size) copies up to
min(size, available()) bytes, advances readPosition accordingly, and returns
them (the returned list length is the count copied). -/
def readBuf (s : Channel) (size : Nat) : Channel × List Nat :=
  ({ s with recv_read_position :=
        s.recv_read_position + min size (s.recv_data_length - s.recv_read_position) },
   (s.recv_data.drop s.recv_read_position).take
      (min size (s.recv_data_length - s.recv_read_position)))

/-- Modelled from the spec: peek() is like single-byte read() but does not
advance the cursor. -/
def peek (s : Channel) : Int :=
  if s.recv_read_position < s.recv_data_length then
    (s.recv_data.getD s.recv_read_position 0 : Int)
  else -1

/-- Modelled from the spec: flush() discards remaining unread bytes by
setting readPosition = dataLength; it does not affect the send side. -/
def flush (s : Channel) : Channel := { s with recv_read_position := s.recv_data_length }

/-- Modelled from the spec: remoteIP() returns the sender captured at the
most recent successful parsePacket(). -/
def remoteIP (s : Channel) : IPAddress := s.sender_ip

/-- Modelled from the spec: remotePort() returns the sender port captured at
the most recent successful parsePacket(). -/
def remotePort (s : Channel) : Nat := s.sender_port

/-- One caller-visible state-mutating operation of the channel API, used to
quantify over operation sequences. -/
inductive Op where
  | opBegin (ready : Bool) (port : Nat)
  | opStop
  | opBeginPacket (ip : IPAddress) (port : Nat)
  | opWrite1 (b : Nat)
  | opWriteBuf (buf : List Nat)
  | opWriteStr (str : List Nat)
  | opEndPacket (osOk : Bool)
  | opParsePacket (inc : Option Datagram) (now : Nat)
  | opRead1
  | opReadBuf (size : Nat)
  | opPeek
  | opFlush
deriving DecidableEq

/-- The state after one operation (outputs discarded). -/
def applyOp (s : Channel) (o : Op) : Channel :=
  match o with
  | .opBegin ready port => (begin s ready port).1
  | .opStop => stop s
  | .opBeginPacket ip port => (beginPacket s ip port).1
  | .opWrite1 b => (write1 s b).1
  | .opWriteBuf buf => (writeBuf s buf).1
  | .opWriteStr str => (writeStr s str).1
  | .opEndPacket osOk => (endPacket s osOk).1
  | .opParsePacket inc now => (parsePacket s inc now).1
  | .opRead1 => (read1 s).1
  | .opReadBuf size => (readBuf s size).1
  | .opPeek => s
  | .opFlush => flush s

/-- The state after a sequence of operations. -/
def runOps (s : Channel) (ops : List Op) : Channel := ops.foldl applyOp s

/-- A channel state is reachable when some operation sequence produces it
from a freshly constructed channel. -/
def Reachable (s : Channel) : Prop :=
  ∃ cap ops, runOps (initChannel cap) ops = s

/-- An operation other than a successful begin: Op.opBegin with ready = true
is the only operation that can reconnect a stopped channel. -/
def allowedAfterStop (o : Op) : Bool :=
  match o with
  | .opBegin ready _ => !ready
  | _ => true

/-- The structural invariant of the channel state: the read cursor never
passes dataLength, dataLength is the length of the buffered payload, and the
staged send bytes never exceed the send capacity. -/
def Inv (s : Channel) : Prop :=
  s.recv_read_position ≤ s.recv_data_length ∧
  s.recv_data_length = s.recv_data.length ∧
  s.send_data.length ≤ s.send_buffer_size

theorem inv_initChannel (cap : Nat) : Inv (initChannel cap) := by
  refine ⟨Nat.le_refl 0, rfl, ?_⟩
  simp [initChannel]

theorem inv_begin (s : Channel) (ready : Bool) (port : Nat) (h : Inv s) :
    Inv (begin s ready port).1 := by
  obtain ⟨h1, h2, h3⟩ := h
  simp only [begin]
  split <;> exact ⟨h1, h2, h3⟩

theorem inv_stop (s : Channel) : Inv (stop s) :=
  ⟨Nat.le_refl 0, rfl, Nat.zero_le _⟩

theorem inv_beginPacket (s : Channel) (ip : IPAddress) (port : Nat) (h : Inv s) :
    Inv (beginPacket s ip port).1 := by
  obtain ⟨h1, h2, h3⟩ := h
  simp only [beginPacket]
  split
  · exact ⟨h1, h2, Nat.zero_le _⟩
  · exact ⟨h1, h2, h3⟩

theorem inv_write1 (s : Channel) (b : Nat) (h : Inv s) : Inv (write1 s b).1 := by
  obtain ⟨h1, h2, h3⟩ := h
  simp only [write1]
  split
  · split
    · refine ⟨h1, h2, ?_⟩
      show (s.send_data ++ [b]).length ≤ s.send_buffer_size
      simp only [List.length_append, List.length_singleton]
      omega
    · exact ⟨h1, h2, h3⟩
  · exact ⟨h1, h2, h3⟩

theorem inv_writeBuf (s : Channel) (buf : List Nat) (h : Inv s) :
    Inv (writeBuf s buf).1 := by
  obtain ⟨h1, h2, h3⟩ := h
  simp only [writeBuf]
  split
  · refine ⟨h1, h2, ?_⟩
    show (s.send_data ++
        buf.take (min buf.length (s.send_buffer_size - s.send_data.length))).length ≤
      s.send_buffer_size
    simp only [List.length_append, List.length_take]
    omega
  · exact ⟨h1, h2, h3⟩

theorem inv_writeStr (s : Channel) (str : List Nat) (h : Inv s) :
    Inv (writeStr s str).1 :=
  inv_writeBuf s str h

theorem inv_endPacket (s : Channel) (osOk : Bool) (h : Inv s) :
    Inv (endPacket s osOk).1 := by
  obtain ⟨h1, h2, h3⟩ := h
  simp only [endPacket]
  split
  · exact ⟨h1, h2, Nat.zero_le _⟩
  · exact ⟨h1, h2, h3⟩

theorem inv_parsePacket (s : Channel) (inc : Option Datagram) (now : Nat) (h : Inv s) :
    Inv (parsePacket s inc now).1 := by
  obtain ⟨h1, h2, h3⟩ := h
  cases inc with
  | none => exact ⟨h1, h2, h3⟩
  | some d =>
      simp only [parsePacket]
      split
      · split
        · exact ⟨h1, h2, h3⟩
        · exact ⟨Nat.zero_le _, rfl, h3⟩
      · exact ⟨h1, h2, h3⟩

theorem inv_read1 (s : Channel) (h : Inv s) : Inv (read1 s).1 := by
  obtain ⟨h1, h2, h3⟩ := h
  simp only [read1]
  split
  · next hlt => exact ⟨hlt, h2, h3⟩
  · exact ⟨h1, h2, h3⟩

theorem inv_readBuf (s : Channel) (size : Nat) (h : Inv s) : Inv (readBuf s size).1 := by
  obtain ⟨h1, h2, h3⟩ := h
  refine ⟨?_, h2, h3⟩
  show s.recv_read_position + min size (s.recv_data_length - s.recv_read_position) ≤
    s.recv_data_length
  omega

theorem inv_flush (s : Channel) (h : Inv s) : Inv (flush s) :=
  ⟨Nat.le_refl _, h.2.1, h.2.2⟩

theorem inv_applyOp (s : Channel) (o : Op) (h : Inv s) : Inv (applyOp s o) := by
  cases o with
  | opBegin ready port => exact inv_begin s ready port h
  | opStop => exact inv_stop s
  | opBeginPacket ip port => exact inv_beginPacket s ip port h
  | opWrite1 b => exact inv_write1 s b h
  | opWriteBuf buf => exact inv_writeBuf s buf h
  | opWriteStr str => exact inv_writeStr s str h
  | opEndPacket osOk => exact inv_endPacket s osOk h
  | opParsePacket inc now => exact inv_parsePacket s inc now h
  | opRead1 => exact inv_read1 s h
  | opReadBuf size => exact inv_readBuf s size h
  | opPeek => exact h
  | opFlush => exact inv_flush s h

theorem inv_runOps (s : Channel) (ops : List Op) (h : Inv s) : Inv (runOps s ops) := by
  induction ops generalizing s with
  | nil => exact h
  | cons o rest ih => exact ih (applyOp s o) (inv_applyOp s o h)

theorem inv_reachable (s : Channel) (h : Reachable s) : Inv s := by
  obtain ⟨cap, ops, hrun⟩ := h
  exact hrun ▸ inv_runOps (initChannel cap) ops (inv_initChannel cap)

/-- C3: in every reachable channel state, available() equals dataLength minus
readPosition, and 0 ≤ readPosition ≤ dataLength. Reachability quantifies over
all operation sequences from a fresh channel, so the bound is preserved by
every operation; in particular no sequence of read calls moves readPosition
past dataLength. -/
theorem available_eq_and_cursor_bounded (s : Channel) (h : Reachable s) :
    s.recv_read_position ≤ s.recv_data_length ∧
    (available s : Int) = (s.recv_data_length : Int) - (s.recv_read_position : Int) := by
  have hinv := inv_reachable s h
  refine ⟨hinv.1, ?_⟩
  have h1 := hinv.1
  simp only [available]
  omega

theorem available_eq_and_cursor_bounded_witness :
    Reachable (initChannel 16) ∧
    ((initChannel 16).recv_read_position ≤ (initChannel 16).recv_data_length ∧
     (available (initChannel 16) : Int) =
       ((initChannel 16).recv_data_length : Int) - ((initChannel 16).recv_read_position : Int)) :=
  ⟨⟨16, [], rfl⟩, available_eq_and_cursor_bounded (initChannel 16) ⟨16, [], rfl⟩⟩

/-- C5: parsePacket is atomic with respect to the receive state: every call
either returns 0 with the whole channel state unchanged, or admits the
datagram and overwrites the buffered payload, dataLength, readPosition
(reset to 0), sender address and sender port together — updating the
deduplication pair — and returns dataLength. -/
theorem parsePacket_atomic (s : Channel) (inc : Option Datagram) (now : Nat) :
    parsePacket s inc now = (s, 0) ∨
    ∃ d, inc = some d ∧
      parsePacket s inc now =
        ({ s with recv_data := d.payload
                  recv_data_length := d.payload.length
                  recv_read_position := 0
                  sender_ip := d.src_ip
                  sender_port := d.src_port
                  last_packet_hash := packetHash d.payload
                  last_packet_time := now },
         d.payload.length) := by
  cases inc with
  | none => exact Or.inl rfl
  | some d =>
      simp only [parsePacket]
      split
      · split
        · exact Or.inl rfl
        · exact Or.inr ⟨d, rfl, rfl⟩
      · exact Or.inl rfl

/-- C7: whenever available() is positive, read returns the byte at
readPosition and advances the cursor by one, while peek returns that same
byte and leaves the state unchanged; whenever available() is zero, both
return -1 and leave the state unchanged. -/
theorem read_peek_cursor (s : Channel) :
    (0 < available s →
      read1 s = ({ s with recv_read_position := s.recv_read_position + 1 },
                 (s.recv_data.getD s.recv_read_position 0 : Int)) ∧
      peek s = (s.recv_data.getD s.recv_read_position 0 : Int)) ∧
    (available s = 0 → read1 s = (s, -1) ∧ peek s = -1) := by
  constructor
  · intro hpos
    have hlt : s.recv_read_position < s.recv_data_length := by
      simp only [available] at hpos
      omega
    exact ⟨by simp only [read1, if_pos hlt], by simp only [peek, if_pos hlt]⟩
  · intro hzero
    have hge : ¬ s.recv_read_position < s.recv_data_length := by
      simp only [available] at hzero
      omega
    exact ⟨by simp only [read1, if_neg hge], by simp only [peek, if_neg hge]⟩

/-- C8: flush sets readPosition to dataLength — so available() right after
is 0 — and leaves the send buffer contents, the send capacity and the
pending destination address and port unchanged. -/
theorem flush_drains_and_preserves_send (s : Channel) :
    (flush s).recv_read_position = s.recv_data_length ∧
    available (flush s) = 0 ∧
    (flush s).send_data = s.send_data ∧
    (flush s).send_buffer_size = s.send_buffer_size ∧
    (flush s).remote_addr = s.remote_addr ∧
    (flush s).remote_port = s.remote_port := by
  refine ⟨rfl, ?_, rfl, rfl, rfl, rfl⟩
  show s.recv_data_length - s.recv_data_length = 0
  omega

/-- C9: the IPAddress equality operator returns true exactly when the four
bytes agree pairwise at every index 0..3. -/
theorem eqOp_iff_bytewise (a b : IPAddress) :
    a.eqOp b = true ↔ ∀ i : Fin 4, a.getByte i = b.getByte i := by
  constructor
  · intro h i
    simp only [IPAddress.eqOp, Bool.and_eq_true, beq_iff_eq] at h
    obtain ⟨⟨⟨e0, e1⟩, e2⟩, e3⟩ := h
    fin_cases i <;> simp [IPAddress.getByte, e0, e1, e2, e3]
  · intro h
    have h0 := h ⟨0, by omega⟩
    have h1 := h ⟨1, by omega⟩
    have h2 := h ⟨2, by omega⟩
    have h3 := h ⟨3, by omega⟩
    simp only [IPAddress.getByte] at h0 h1 h2 h3
    simp only [IPAddress.eqOp, Bool.and_eq_true, beq_iff_eq]
    exact ⟨⟨⟨by simpa using h0, by simpa using h1⟩, by simpa using h2⟩, by simpa using h3⟩

/-- C10: a default-constructed IPAddress has all four bytes zero and equals
IPAddress(0,0,0,0) under the byte-wise equality operator. -/
theorem default_ip_is_zero :
    (∀ i : Fin 4, IPAddress.zero.getByte i = 0) ∧
    IPAddress.zero.eqOp (IPAddress.mk 0 0 0 0) = true := by
  decide

/-- C1: on a bound channel, a datagram whose payload fingerprint equals
lastPacketHash and which arrives less than 100 ms after lastPacketTime is
dropped — parsePacket returns 0 and the state is unchanged; one with the
same fingerprint arriving 100 ms or more after lastPacketTime is delivered:
parsePacket returns its length, copies the payload into the receive buffer,
and updates lastPacketHash and lastPacketTime. -/
theorem dedup_window (s : Channel) (d : Datagram) (now : Nat)
    (hconn : s.is_connected = true)
    (hhash : packetHash d.payload = s.last_packet_hash) :
    (now < s.last_packet_time + DEDUP_WINDOW_MS →
      parsePacket s (some d) now = (s, 0)) ∧
    (s.last_packet_time + DEDUP_WINDOW_MS ≤ now →
      (parsePacket s (some d) now).2 = d.payload.length ∧
      (parsePacket s (some d) now).1.recv_data = d.payload ∧
      (parsePacket s (some d) now).1.last_packet_hash = packetHash d.payload ∧
      (parsePacket s (some d) now).1.last_packet_time = now) := by
  constructor
  · intro hlt
    have hc : packetHash d.payload = s.last_packet_hash ∧
        now - s.last_packet_time < DEDUP_WINDOW_MS := by
      refine ⟨hhash, ?_⟩
      simp only [DEDUP_WINDOW_MS] at hlt ⊢
      omega
    simp only [parsePacket, if_pos hconn, if_pos hc]
  · intro hge
    have hc : ¬ (packetHash d.payload = s.last_packet_hash ∧
        now - s.last_packet_time < DEDUP_WINDOW_MS) := by
      intro hand
      have hsub := hand.2
      simp only [DEDUP_WINDOW_MS] at hsub hge
      omega
    simp only [parsePacket, if_pos hconn, if_neg hc]
    exact ⟨trivial, trivial, trivial, trivial⟩

/-- Channel used by concrete witness instances: a bound channel with send
capacity 8 whose filter remembers the fingerprint of payload [7] at 1000 ms. -/
def chanDedup : Channel :=
  { initChannel 8 with is_connected := true
                       last_packet_hash := packetHash [7]
                       last_packet_time := 1000 }

theorem dedup_window_witness :
    (parsePacket chanDedup (some ⟨[7], IPAddress.zero, 4⟩) 1050 = (chanDedup, 0)) ∧
    ((parsePacket chanDedup (some ⟨[7], IPAddress.zero, 4⟩) 1100).2 = 1 ∧
     (parsePacket chanDedup (some ⟨[7], IPAddress.zero, 4⟩) 1100).1.recv_data = [7] ∧
     (parsePacket chanDedup (some ⟨[7], IPAddress.zero, 4⟩) 1100).1.last_packet_hash =
        packetHash [7] ∧
     (parsePacket chanDedup (some ⟨[7], IPAddress.zero, 4⟩) 1100).1.last_packet_time = 1100) :=
  ⟨(dedup_window chanDedup ⟨[7], IPAddress.zero, 4⟩ 1050 rfl rfl).1 (by decide),
   (dedup_window chanDedup ⟨[7], IPAddress.zero, 4⟩ 1100 rfl rfl).2 (by decide)⟩

/-- C2: a payload S no longer than the send capacity staged by beginPacket,
write(S), endPacket is emitted exactly as S in one datagram, and a receiving
peer whose deduplication filter admits it gets length S from parsePacket and
reads back exactly the bytes of S. -/
theorem send_receive_roundtrip (tx rx : Channel) (S : List Nat) (ip sip : IPAddress)
    (port sport now : Nat)
    (htx : tx.is_connected = true) (hrx : rx.is_connected = true)
    (hlen : S.length ≤ tx.send_buffer_size)
    (hok : ¬ (packetHash S = rx.last_packet_hash ∧
        now - rx.last_packet_time < DEDUP_WINDOW_MS)) :
    (writeBuf (beginPacket tx ip port).1 S).2 = S.length ∧
    (endPacket (writeBuf (beginPacket tx ip port).1 S).1 true).2.2 = some S ∧
    (parsePacket rx (some ⟨S, sip, sport⟩) now).2 = S.length ∧
    (readBuf (parsePacket rx (some ⟨S, sip, sport⟩) now).1 S.length).2 = S := by
  have hmin : min S.length (tx.send_buffer_size - ([] : List Nat).length) = S.length := by
    simp only [List.length_nil, Nat.sub_zero]
    omega
  refine ⟨?_, ?_, ?_, ?_⟩
  · simp only [beginPacket, if_pos htx, writeBuf, htx, if_pos, if_true, hmin]
  · simp only [beginPacket, if_pos htx, writeBuf, endPacket, htx, if_pos, if_true, hmin,
      List.take_length, List.nil_append]
  · simp only [parsePacket, if_pos hrx, if_neg hok]
  · simp only [parsePacket, if_pos hrx, if_neg hok, readBuf, Nat.sub_zero, min_self,
      List.drop_zero, List.take_length]

/-- Channel used by concrete witness instances: a fresh bound channel with
send capacity 8. -/
def chanBound8 : Channel := { initChannel 8 with is_connected := true }

theorem send_receive_roundtrip_witness :
    (writeBuf (beginPacket chanBound8 IPAddress.zero 5353).1 [1, 2, 3]).2 = 3 ∧
    (endPacket (writeBuf (beginPacket chanBound8 IPAddress.zero 5353).1 [1, 2, 3]).1
        true).2.2 = some [1, 2, 3] ∧
    (parsePacket chanBound8 (some ⟨[1, 2, 3], IPAddress.zero, 5353⟩) 777).2 = 3 ∧
    (readBuf (parsePacket chanBound8 (some ⟨[1, 2, 3], IPAddress.zero, 5353⟩) 777).1 3).2 =
      [1, 2, 3] :=
  send_receive_roundtrip chanBound8 chanBound8 [1, 2, 3] IPAddress.zero IPAddress.zero
    5353 5353 777 rfl rfl (by decide) (by decide)

/-- C4: every write variant returns exactly the number of bytes it appended
(the state gains precisely the accepted prefix), never more than requested,
and the staged send length never exceeds the capacity — overlong writes are
truncated, never written out of bounds. -/
theorem write_capacity_safe (s : Channel) (h : s.send_data.length ≤ s.send_buffer_size) :
    (∀ b, (write1 s b).2 ≤ 1 ∧
      (write1 s b).1.send_data = s.send_data ++ List.take (write1 s b).2 [b] ∧
      (write1 s b).1.send_data.length ≤ s.send_buffer_size) ∧
    (∀ buf, (writeBuf s buf).2 ≤ buf.length ∧
      (writeBuf s buf).1.send_data = s.send_data ++ List.take (writeBuf s buf).2 buf ∧
      (writeBuf s buf).1.send_data.length ≤ s.send_buffer_size) ∧
    (∀ str, (writeStr s str).2 ≤ str.length ∧
      (writeStr s str).1.send_data = s.send_data ++ List.take (writeStr s str).2 str ∧
      (writeStr s str).1.send_data.length ≤ s.send_buffer_size) := by
  have hbuf : ∀ buf, (writeBuf s buf).2 ≤ buf.length ∧
      (writeBuf s buf).1.send_data = s.send_data ++ List.take (writeBuf s buf).2 buf ∧
      (writeBuf s buf).1.send_data.length ≤ s.send_buffer_size := by
    intro buf
    simp only [writeBuf]
    split
    · refine ⟨?_, rfl, ?_⟩
      · show min buf.length (s.send_buffer_size - s.send_data.length) ≤ buf.length
        omega
      · show (s.send_data ++
            buf.take (min buf.length (s.send_buffer_size - s.send_data.length))).length ≤
          s.send_buffer_size
        simp only [List.length_append, List.length_take]
        omega
    · refine ⟨Nat.zero_le _, ?_, h⟩
      show s.send_data = s.send_data ++ List.take 0 buf
      simp
  refine ⟨?_, hbuf, fun str => hbuf str⟩
  intro b
  simp only [write1]
  split
  · split
    · refine ⟨Nat.le_refl 1, ?_, ?_⟩
      · show s.send_data ++ [b] = s.send_data ++ List.take 1 [b]
        simp
      · show (s.send_data ++ [b]).length ≤ s.send_buffer_size
        simp only [List.length_append, List.length_singleton]
        omega
    · refine ⟨Nat.zero_le 1, ?_, h⟩
      show s.send_data = s.send_data ++ List.take 0 [b]
      simp
  · refine ⟨Nat.zero_le 1, ?_, h⟩
    show s.send_data = s.send_data ++ List.take 0 [b]
    simp

/-- Channel used by concrete witness instances: a bound channel with send
capacity 2 and one byte already staged, so truncation is exercised. -/
def chanNearFull : Channel :=
  { initChannel 2 with is_connected := true, send_data := [9] }

theorem write_capacity_safe_witness :
    ((write1 chanNearFull 5).2 ≤ 1 ∧
     (write1 chanNearFull 5).1.send_data =
        chanNearFull.send_data ++ List.take (write1 chanNearFull 5).2 [5] ∧
     (write1 chanNearFull 5).1.send_data.length ≤ chanNearFull.send_buffer_size) ∧
    ((writeBuf chanNearFull [1, 2, 3]).2 ≤ 3 ∧
     (writeBuf chanNearFull [1, 2, 3]).1.send_data =
        chanNearFull.send_data ++ List.take (writeBuf chanNearFull [1, 2, 3]).2 [1, 2, 3] ∧
     (writeBuf chanNearFull [1, 2, 3]).1.send_data.length ≤ chanNearFull.send_buffer_size) ∧
    ((writeStr chanNearFull [4, 4]).2 ≤ 2 ∧
     (writeStr chanNearFull [4, 4]).1.send_data =
        chanNearFull.send_data ++ List.take (writeStr chanNearFull [4, 4]).2 [4, 4] ∧
     (writeStr chanNearFull [4, 4]).1.send_data.length ≤ chanNearFull.send_buffer_size) :=
  ⟨(write_capacity_safe chanNearFull (by decide)).1 5,
   (write_capacity_safe chanNearFull (by decide)).2.1 [1, 2, 3],
   (write_capacity_safe chanNearFull (by decide)).2.2 [4, 4]⟩

theorem applyOp_keeps_disconnected (s : Channel) (o : Op) (hs : s.is_connected = false)
    (ho : allowedAfterStop o = true) : (applyOp s o).is_connected = false := by
  cases o with
  | opBegin ready port =>
      have hr : ready = false := by
        simpa [allowedAfterStop] using ho
      simp [applyOp, begin, hr, hs]
  | opStop => rfl
  | opBeginPacket ip port => simp [applyOp, beginPacket, hs]
  | opWrite1 b => simp [applyOp, write1, hs]
  | opWriteBuf buf => simp [applyOp, writeBuf, hs]
  | opWriteStr str => simp [applyOp, writeStr, writeBuf, hs]
  | opEndPacket osOk => simp [applyOp, endPacket, hs]
  | opParsePacket inc now =>
      cases inc with
      | none => exact hs
      | some d => simp [applyOp, parsePacket, hs]
  | opRead1 =>
      simp only [applyOp, read1]
      split
      · exact hs
      · exact hs
  | opReadBuf size => exact hs
  | opPeek => exact hs
  | opFlush => exact hs

theorem runOps_keeps_disconnected (s : Channel) (ops : List Op)
    (hs : s.is_connected = false) (hops : ops.all allowedAfterStop = true) :
    (runOps s ops).is_connected = false := by
  induction ops generalizing s with
  | nil => exact hs
  | cons o rest ih =>
      simp only [List.all_cons, Bool.and_eq_true] at hops
      exact ih (applyOp s o) (applyOp_keeps_disconnected s o hs hops.1) hops.2

/-- C6: after stop — and through any further sequence of operations that
contains no successful begin — connected() returns false, every write
variant returns 0, and every parsePacket call returns 0, all without
touching the state beyond the stop itself; stop on an already stopped
channel is a no-op. -/
theorem stop_disables_until_begin (s : Channel) (ops : List Op)
    (hops : ops.all allowedAfterStop = true) :
    connected (runOps (stop s) ops) = false ∧
    (∀ b, (write1 (runOps (stop s) ops) b).2 = 0) ∧
    (∀ buf, (writeBuf (runOps (stop s) ops) buf).2 = 0) ∧
    (∀ str, (writeStr (runOps (stop s) ops) str).2 = 0) ∧
    (∀ inc now, (parsePacket (runOps (stop s) ops) inc now).2 = 0) ∧
    stop (stop s) = stop s := by
  have hsc : (runOps (stop s) ops).is_connected = false :=
    runOps_keeps_disconnected (stop s) ops rfl hops
  refine ⟨hsc, ?_, ?_, ?_, ?_, rfl⟩
  · intro b
    simp [write1, hsc]
  · intro buf
    simp [writeBuf, hsc]
  · intro str
    simp [writeStr, writeBuf, hsc]
  · intro inc now
    cases inc with
    | none => rfl
    | some d => simp [parsePacket, hsc]

/-- Operation sequence used by concrete witness instances: a write, a failed
begin and a flush after the stop, none of which may reconnect the channel. -/
def opsAfterStop : List Op := [Op.opWrite1 7, Op.opBegin false 5353, Op.opFlush]

theorem stop_disables_until_begin_witness :
    connected (runOps (stop chanBound8) opsAfterStop) = false ∧
    (write1 (runOps (stop chanBound8) opsAfterStop) 5).2 = 0 ∧
    (writeBuf (runOps (stop chanBound8) opsAfterStop) [1, 2]).2 = 0 ∧
    (writeStr (runOps (stop chanBound8) opsAfterStop) [3]).2 = 0 ∧
    (parsePacket (runOps (stop chanBound8) opsAfterStop)
        (some ⟨[9], IPAddress.zero, 4⟩) 77).2 = 0 ∧
    stop (stop chanBound8) = stop chanBound8 :=
  ⟨(stop_disables_until_begin chanBound8 opsAfterStop (by decide)).1,
   (stop_disables_until_begin chanBound8 opsAfterStop (by decide)).2.1 5,
   (stop_disables_until_begin chanBound8 opsAfterStop (by decide)).2.2.1 [1, 2],
   (stop_disables_until_begin chanBound8 opsAfterStop (by decide)).2.2.2.1 [3],
   (stop_disables_until_begin chanBound8 opsAfterStop (by decide)).2.2.2.2.1
      (some ⟨[9], IPAddress.zero, 4⟩) 77,
   (stop_disables_until_begin chanBound8 opsAfterStop (by decide)).2.2.2.2.2⟩

end DeviceGroupsUdp
